import Mathlib

/-!
Shallow embedding of `src/main.py` (multipage-tiff-compressor).

The program is a three-stage pipeline:
* `JpegImageLoader.load_images`: enumerates a folder, selects files whose
  lowercased name ends in ".jpg" / ".jpeg" / ".png", opens each one inside a
  try/except that catches only IOError/OSError, threads a mutable DPI pair
  through the batch (default 100x100, overwritten by each opened image's
  embedded metadata, rounded), converts each decoded image to the requested
  color space and collects the results in order.
* `JpegToTiffConverter.convert_images_to_tiff`: on a nonempty list, writes one
  multi-page TIFF carrying the converter's DPI pair, compression and quality,
  and prints a success line; on an empty list it does nothing.
* `ImageProcessor.process_images`: calls the loader, copies the resolved DPI
  into the converter's fields, then calls the converter.

Modelling choices:
* Python strings are `List Char` (`Str`), so that name filtering and log lines
  are executable and kernel-decidable.
* A raised exception is modelled by `ErrClass`: the loader's except clause
  catches exactly the IOError/OSError family, so all an error's identity that
  matters is whether it belongs to that family.
* DPI metadata values are rationals (PIL reports floats); Python's `round`
  (banker's rounding, ties to even) is `pyRound`, computed on the numerator
  and denominator so that it evaluates by kernel reduction.
* Console output is modelled as the list of printed lines, in order.
-/

deriving instance DecidableEq for Except

namespace MultipageTiff

/-- Python strings, modelled as lists of characters. -/
abbrev Str := List Char

/-- The character list of a string literal. -/
def str (s : String) : Str := s.data

/-- Class of a raised Python exception: either it belongs to the
IOError/OSError family (the only one the loader's except clause catches),
or it is of any other exception type. -/
inductive ErrClass where
  | ioOsError
  | otherError
deriving DecidableEq, Repr

/-- A decodable source image as the PIL library presents it to `main.py`:
an opaque pixel payload `data`, the optional embedded DPI metadata that
`img.info.get` returns for the "dpi" key, and whether `img.convert` raises —
and if so, the class of the raised exception (PIL decodes lazily, so a
truncated file can open fine and only fail at `convert`). -/
structure SrcImage where
  data : Nat
  dpi : Option (ℚ × ℚ)
  convertRaises : Option ErrClass
deriving DecidableEq, Repr

/-- What happens when `Image.open` is applied to a folder entry: it either
yields a decoded image or raises an exception of the given class. -/
inductive EntryContent where
  | decodable (img : SrcImage)
  | undecodable (e : ErrClass)
deriving DecidableEq, Repr

/-- One entry of the folder listing: its file name and its decode behaviour. -/
structure Entry where
  name : Str
  content : EntryContent
deriving DecidableEq, Repr

/-- A folder path as the loader sees it: `none` when `os.listdir` raises
(the path does not exist), otherwise the entries in enumeration order. -/
abbrev Folder := Option (List Entry)

/-- Python's built-in `round` on a rational: nearest integer, ties to even
(banker's rounding), computed from the numerator and denominator. -/
def pyRound (q : ℚ) : ℤ :=
  let n := q.num
  let d : ℤ := (q.den : ℤ)
  let f := n.fdiv d
  let r2 := 2 * (n - f * d)
  if r2 < d then f
  else if d < r2 then f + 1
  else if f % 2 = 0 then f else f + 1

/-- The extension filter of `load_images` (main.py line 88):
`filename.lower().endswith((".jpg", ".jpeg", ".png"))`. -/
def matchesExt (filename : Str) : Bool :=
  let n := filename.map Char.toLower
  List.isSuffixOf (str ".jpg") n || List.isSuffixOf (str ".jpeg") n
    || List.isSuffixOf (str ".png") n

/-- An image after `img.convert(color_space)`: the payload plus the mode it
was converted into. -/
structure ConvertedImage where
  data : Nat
  mode : Str
deriving DecidableEq, Repr

/-- The mutable fields of a `JpegImageLoader` instance: the running DPI pair. -/
structure JpegImageLoader where
  dpi_x : ℤ
  dpi_y : ℤ
deriving DecidableEq, Repr

/-- `JpegImageLoader.__init__` (main.py lines 75-77): both DPI fields start
at the default 100. -/
def JpegImageLoader.init : JpegImageLoader := ⟨100, 100⟩

/-- The per-file error line printed by the except clause (main.py line 100). -/
def errLine (filename : Str) : Str := str "Error loading image " ++ filename

/-- Main.py lines 93-94, run for every image that `Image.open` yields:
`dpi_info = img.info.get("dpi", (self.dpi_x, self.dpi_y))` followed by
`self.dpi_x, self.dpi_y = round(dpi_info[0]), round(dpi_info[1])`. -/
def dpiUpdate (st : JpegImageLoader) (img : SrcImage) : JpegImageLoader :=
  let dpi_info := img.dpi.getD ((st.dpi_x : ℚ), (st.dpi_y : ℚ))
  ⟨pyRound dpi_info.1, pyRound dpi_info.2⟩

/-- One iteration of the `for filename in os.listdir(...)` loop body of
`load_images` (main.py lines 87-100), acting on the loader state.  Returns
the new state, the image appended to `image_list` (if any) and the error
line printed (if any); or, for an exception the except clause does not
catch, the class of the escaping exception.  Note the order of operations
in the source: the DPI update precedes `img.convert`, so a conversion
failure still leaves the DPI fields updated. -/
def loadStep (color_space : String) (st : JpegImageLoader) (e : Entry) :
    Except ErrClass (JpegImageLoader × Option ConvertedImage × Option Str) :=
  if matchesExt e.name then
    match e.content with
    | .undecodable err =>
      match err with
      | .ioOsError => .ok (st, none, some (errLine e.name))
      | .otherError => .error .otherError
    | .decodable img =>
      match img.convertRaises with
      | some .ioOsError => .ok (dpiUpdate st img, none, some (errLine e.name))
      | some .otherError => .error .otherError
      | none => .ok (dpiUpdate st img, some ⟨img.data, str color_space⟩, none)
  else
    .ok (st, none, none)

/-- The whole `for` loop of `load_images`: folds `loadStep` over the entries,
accumulating the image list and the printed error lines in order, and
propagating any uncaught exception. -/
def loadLoop (color_space : String) :
    List Entry → JpegImageLoader →
    Except ErrClass (List ConvertedImage × JpegImageLoader × List Str)
  | [], st => .ok ([], st, [])
  | e :: rest, st =>
    match loadStep color_space st e with
    | .error err => .error err
    | .ok (st', imgOpt, logOpt) =>
      match loadLoop color_space rest st' with
      | .error err => .error err
      | .ok (imgs, stFin, logs) =>
        .ok (imgOpt.toList ++ imgs, stFin, logOpt.toList ++ logs)

/-- `JpegImageLoader.load_images` (main.py lines 79-102): enumerate the
folder (raising FileNotFoundError, an OSError, if the path does not exist),
run the loop, and return `(image_list, self.dpi_x, self.dpi_y)` together
with the final instance state and the printed error lines. -/
def load_images (st : JpegImageLoader) (folder : Folder) (color_space : String) :
    Except ErrClass (List ConvertedImage × ℤ × ℤ × JpegImageLoader × List Str) :=
  match folder with
  | none => .error .ioOsError
  | some entries =>
    match loadLoop color_space entries st with
    | .error err => .error err
    | .ok (imgs, stFin, logs) => .ok (imgs, stFin.dpi_x, stFin.dpi_y, stFin, logs)

/-- The fields of a `JpegToTiffConverter` instance: its DPI pair
(`__init__` defaults both to 100, main.py lines 27-34). -/
structure JpegToTiffConverter where
  dpi_x : ℤ
  dpi_y : ℤ
deriving DecidableEq, Repr

/-- `JpegToTiffConverter.__init__` with default arguments. -/
def JpegToTiffConverter.init : JpegToTiffConverter := ⟨100, 100⟩

/-- The output file written by `Image.save(..., save_all=True, ...)`:
its pages in order, the single DPI pair, compression and quality. -/
structure TiffFile where
  pages : List ConvertedImage
  dpi : ℤ × ℤ
  compression : Str
  quality : ℤ
deriving DecidableEq, Repr

/-- The success line printed after saving (main.py line 49). -/
def savedMsg (output_file : String) : Str :=
  str "testImages successfully saved to " ++ str output_file

/-- `JpegToTiffConverter.convert_images_to_tiff` (main.py lines 36-49):
on a nonempty list, save all images as one multi-page file with the
converter's DPI pair and print the success line; on an empty list
(`if image_list:` is false) do nothing.  Returns the file written (if any)
and the printed lines. -/
def convert_images_to_tiff (conv : JpegToTiffConverter)
    (image_list : List ConvertedImage) (output_file : String)
    (compression : String) (quality : ℤ) : Option TiffFile × List Str :=
  match image_list with
  | [] => (none, [])
  | _ :: _ =>
    (some ⟨image_list, (conv.dpi_x, conv.dpi_y), str compression, quality⟩,
     [savedMsg output_file])

/-- `ImageProcessor.process_images` (main.py lines 121-134): call the loader,
copy the resolved DPI pair into the converter's fields, then call the
converter.  Returns the file written (if any), the final loader and
converter states and the printed lines; or the class of an uncaught
exception. -/
def process_images (loader : JpegImageLoader) (conv : JpegToTiffConverter)
    (folder : Folder) (output_file : String) (compression : String)
    (quality : ℤ) (color_space : String) :
    Except ErrClass
      (Option TiffFile × JpegImageLoader × JpegToTiffConverter × List Str) :=
  match load_images loader folder color_space with
  | .error err => .error err
  | .ok (image_list, dpi_x, dpi_y, loader', logs) =>
    let conv' : JpegToTiffConverter := ⟨dpi_x, dpi_y⟩
    let res := convert_images_to_tiff conv' image_list output_file compression quality
    .ok (res.1, loader', conv', logs ++ res.2)

/-! ### Specification-side definitions -/

/-- An entry loads without any error: `Image.open` succeeds and
`img.convert` does not raise. -/
def loadsCleanly (e : Entry) : Bool :=
  match e.content with
  | .decodable img => img.convertRaises.isNone
  | .undecodable _ => false

/-- The page an entry contributes to the output when its whole per-file body
succeeds: one converted image for a matching decodable entry, nothing for a
non-matching one. -/
def pageOf (color_space : String) (e : Entry) : List ConvertedImage :=
  if matchesExt e.name then
    match e.content with
    | .decodable img => [⟨img.data, str color_space⟩]
    | .undecodable _ => []
  else []

/-- The effect of one folder entry on the running DPI pair: a matching entry
that opens successfully and carries metadata overwrites the pair with its
rounded metadata; every other entry leaves the pair unchanged. -/
def dpiStep (st : JpegImageLoader) (e : Entry) : JpegImageLoader :=
  if matchesExt e.name then
    match e.content with
    | .decodable img =>
      match img.dpi with
      | some m => ⟨pyRound m.1, pyRound m.2⟩
      | none => st
    | .undecodable _ => st
  else st

/-- The DPI pair after scanning a list of entries, starting from `st`. -/
def dpiFold (entries : List Entry) (st : JpegImageLoader) : JpegImageLoader :=
  entries.foldl dpiStep st

/-- The DPI metadata an entry exposes to the loader: present exactly when the
entry matches the extension filter, opens successfully, and carries embedded
metadata. -/
def metadataOf (e : Entry) : Option (ℚ × ℚ) :=
  if matchesExt e.name then
    match e.content with
    | .decodable img => img.dpi
    | .undecodable _ => none
  else none

/-- The metadata of the last entry in the list that exposes any. -/
def lastMetadata : List Entry → Option (ℚ × ℚ)
  | [] => none
  | e :: rest =>
    match lastMetadata rest with
    | some m => some m
    | none => metadataOf e

instance : DecidableEq (ℤ × ℤ × JpegImageLoader × List Str) :=
  inferInstance

instance :
    DecidableEq (Option TiffFile × JpegImageLoader × JpegToTiffConverter × List Str) :=
  inferInstance

/-! ### Concrete folder entries used to instantiate the theorems -/

/-- A valid JPEG with embedded 300x300 DPI metadata. -/
def entryJpgDpi300 : Entry := ⟨str "a.jpg", .decodable ⟨1, some (300, 300), none⟩⟩

/-- A valid PNG (upper-case extension) without DPI metadata. -/
def entryPngNoDpi : Entry := ⟨str "b.PNG", .decodable ⟨2, none, none⟩⟩

/-- A corrupt JPEG: `Image.open` raises an IOError/OSError. -/
def entryCorruptJpeg : Entry := ⟨str "c.jpeg", .undecodable .ioOsError⟩

/-- A truncated JPEG: it opens (PIL decodes lazily) and exposes 300x300 DPI
metadata, but `img.convert` raises an IOError/OSError. -/
def entryTruncatedJpg : Entry := ⟨str "t.jpg", .decodable ⟨4, some (300, 300), some .ioOsError⟩⟩

/-- A BMP file: its extension does not match, so its content is never touched. -/
def entryBmp : Entry := ⟨str "c.bmp", .undecodable .otherError⟩

/-- A text file: non-matching extension, never touched. -/
def entryReadme : Entry := ⟨str "readme.txt", .decodable ⟨9, some (600, 600), none⟩⟩

/-- A PNG on which some non-IOError exception is raised at open. -/
def entryBadPng : Entry := ⟨str "x.png", .undecodable .otherError⟩

/-! ### Helper lemmas -/

theorem pyRound_intCast (k : ℤ) : pyRound ((k : ℚ)) = k := by
  simp [pyRound, Rat.num_intCast, Rat.den_intCast, Int.fdiv_one]

theorem dpiUpdate_dpi_none {img : SrcImage} (st : JpegImageLoader)
    (h : img.dpi = none) : dpiUpdate st img = st := by
  simp only [dpiUpdate, h, Option.getD_none]
  rw [pyRound_intCast, pyRound_intCast]

theorem dpiUpdate_dpi_some {img : SrcImage} {m : ℚ × ℚ} (st : JpegImageLoader)
    (h : img.dpi = some m) : dpiUpdate st img = ⟨pyRound m.1, pyRound m.2⟩ := by
  simp [dpiUpdate, h]

theorem dpiStep_decodable {e : Entry} {img : SrcImage} (st : JpegImageLoader)
    (hm : matchesExt e.name = true) (hc : e.content = .decodable img) :
    dpiStep st e = dpiUpdate st img := by
  cases hd : img.dpi with
  | none => rw [dpiUpdate_dpi_none st hd]; simp [dpiStep, hm, hc, hd]
  | some m => rw [dpiUpdate_dpi_some st hd]; simp [dpiStep, hm, hc, hd]

theorem loadStep_nonmatching (cs : String) (st : JpegImageLoader) {e : Entry}
    (h : matchesExt e.name = false) : loadStep cs st e = .ok (st, none, none) := by
  simp [loadStep, h]

theorem loadStep_undecodable_ioOs (cs : String) (st : JpegImageLoader) {e : Entry}
    (hm : matchesExt e.name = true) (hc : e.content = .undecodable .ioOsError) :
    loadStep cs st e = .ok (st, none, some (errLine e.name)) := by
  simp [loadStep, hm, hc]

theorem loadStep_clean (cs : String) (st : JpegImageLoader) {e : Entry} {img : SrcImage}
    (hm : matchesExt e.name = true) (hc : e.content = .decodable img)
    (hr : img.convertRaises = none) :
    loadStep cs st e = .ok (dpiStep st e, some ⟨img.data, str cs⟩, none) := by
  rw [dpiStep_decodable st hm hc]; simp [loadStep, hm, hc, hr]

theorem loadStep_convert_ioOs (cs : String) (st : JpegImageLoader) {e : Entry}
    {img : SrcImage} (hm : matchesExt e.name = true)
    (hc : e.content = .decodable img) (hr : img.convertRaises = some .ioOsError) :
    loadStep cs st e = .ok (dpiStep st e, none, some (errLine e.name)) := by
  rw [dpiStep_decodable st hm hc]; simp [loadStep, hm, hc, hr]

theorem loadStep_undecodable_other (cs : String) (st : JpegImageLoader) {e : Entry}
    (hm : matchesExt e.name = true) (hc : e.content = .undecodable .otherError) :
    loadStep cs st e = .error .otherError := by
  simp [loadStep, hm, hc]

theorem loadStep_convert_other (cs : String) (st : JpegImageLoader) {e : Entry}
    {img : SrcImage} (hm : matchesExt e.name = true)
    (hc : e.content = .decodable img) (hr : img.convertRaises = some .otherError) :
    loadStep cs st e = .error .otherError := by
  simp [loadStep, hm, hc, hr]

theorem loadStep_state {cs : String} {st : JpegImageLoader} {e : Entry}
    {st' : JpegImageLoader} {io : Option ConvertedImage} {lo : Option Str}
    (h : loadStep cs st e = .ok (st', io, lo)) : st' = dpiStep st e := by
  cases hm : matchesExt e.name with
  | false => simp [loadStep, hm] at h; simp [dpiStep, hm, h.1]
  | true =>
    cases hc : e.content with
    | undecodable err =>
      cases err with
      | ioOsError => simp [loadStep, hm, hc] at h; simp [dpiStep, hm, hc, h.1]
      | otherError => simp [loadStep, hm, hc] at h
    | decodable img =>
      rw [dpiStep_decodable st hm hc]
      cases hr : img.convertRaises with
      | none => simp [loadStep, hm, hc, hr] at h; exact h.1.symm
      | some c =>
        cases c with
        | ioOsError => simp [loadStep, hm, hc, hr] at h; exact h.1.symm
        | otherError => simp [loadStep, hm, hc, hr] at h

theorem loadStep_error {cs : String} {st : JpegImageLoader} {e : Entry}
    {err : ErrClass} (h : loadStep cs st e = .error err) : err = .otherError := by
  cases hm : matchesExt e.name with
  | false => simp [loadStep, hm] at h
  | true =>
    cases hc : e.content with
    | undecodable ec =>
      cases ec with
      | ioOsError => simp [loadStep, hm, hc] at h
      | otherError => simp [loadStep, hm, hc] at h; exact h.symm
    | decodable img =>
      cases hr : img.convertRaises with
      | none => simp [loadStep, hm, hc, hr] at h
      | some c =>
        cases c with
        | ioOsError => simp [loadStep, hm, hc, hr] at h
        | otherError => simp [loadStep, hm, hc, hr] at h; exact h.symm

theorem loadLoop_state {cs : String} :
    ∀ {entries : List Entry} {st : JpegImageLoader} {imgs : List ConvertedImage}
      {st' : JpegImageLoader} {logs : List Str},
      loadLoop cs entries st = .ok (imgs, st', logs) → st' = dpiFold entries st := by
  intro entries
  induction entries with
  | nil =>
    intro st imgs st' logs h
    simp only [loadLoop, Except.ok.injEq, Prod.mk.injEq] at h
    simp [dpiFold, ← h.2.1]
  | cons e rest ih =>
    intro st imgs st' logs h
    cases hs : loadStep cs st e with
    | error err => simp [loadLoop, hs] at h
    | ok t =>
      obtain ⟨st1, io, lo⟩ := t
      cases hr : loadLoop cs rest st1 with
      | error err2 => simp [loadLoop, hs, hr] at h
      | ok t2 =>
        obtain ⟨imgs2, st2, logs2⟩ := t2
        simp only [loadLoop, hs, hr, Except.ok.injEq, Prod.mk.injEq] at h
        have h1 : st2 = dpiFold rest st1 := ih hr
        have h2 : st1 = dpiStep st e := loadStep_state hs
        have h3 : dpiFold (e :: rest) st = dpiFold rest (dpiStep st e) := rfl
        rw [← h.2.1, h1, h2, h3]

theorem loadLoop_error_class {cs : String} :
    ∀ {entries : List Entry} {st : JpegImageLoader} {err : ErrClass},
      loadLoop cs entries st = .error err → err = .otherError := by
  intro entries
  induction entries with
  | nil => intro st err h; simp [loadLoop] at h
  | cons e rest ih =>
    intro st err h
    cases hs : loadStep cs st e with
    | error e0 =>
      simp only [loadLoop, hs, Except.error.injEq] at h
      rw [← h]; exact loadStep_error hs
    | ok t =>
      obtain ⟨st1, io, lo⟩ := t
      cases hr : loadLoop cs rest st1 with
      | error e1 =>
        simp only [loadLoop, hs, hr, Except.error.injEq] at h
        rw [← h]; exact ih hr
      | ok t2 => simp [loadLoop, hs, hr] at h

theorem loadLoop_nonmatching (cs : String) :
    ∀ {entries : List Entry} (st : JpegImageLoader),
      (∀ e ∈ entries, matchesExt e.name = false) →
      loadLoop cs entries st = .ok ([], st, []) := by
  intro entries
  induction entries with
  | nil => intro st _; rfl
  | cons e rest ih =>
    intro st h
    have h1 : matchesExt e.name = false := h e (List.mem_cons_self e rest)
    have h2 : ∀ x ∈ rest, matchesExt x.name = false :=
      fun x hx => h x (List.mem_cons_of_mem e hx)
    simp [loadLoop, loadStep_nonmatching cs st h1, ih st h2]

theorem loadLoop_filter (cs : String) :
    ∀ (entries : List Entry) (st : JpegImageLoader),
      loadLoop cs (entries.filter fun e => matchesExt e.name) st
        = loadLoop cs entries st := by
  intro entries
  induction entries with
  | nil => intro st; rfl
  | cons e rest ih =>
    intro st
    cases hm : matchesExt e.name with
    | true =>
      rw [List.filter_cons_of_pos (by simpa using hm)]
      cases hs : loadStep cs st e with
      | error err => simp [loadLoop, hs]
      | ok t =>
        obtain ⟨st1, io, lo⟩ := t
        simp only [loadLoop, hs]
        rw [ih st1]
    | false =>
      rw [List.filter_cons_of_neg (by simpa using hm)]
      rw [ih st]
      have hstep := loadStep_nonmatching cs st hm
      cases hr : loadLoop cs rest st with
      | error err => simp [loadLoop, hstep, hr]
      | ok t => obtain ⟨i, s, l⟩ := t; simp [loadLoop, hstep, hr]

theorem loadLoop_clean (cs : String) :
    ∀ {entries : List Entry} (st : JpegImageLoader),
      (∀ e ∈ entries, matchesExt e.name = true → loadsCleanly e = true) →
      loadLoop cs entries st
        = .ok (entries.flatMap (pageOf cs), dpiFold entries st, []) := by
  intro entries
  induction entries with
  | nil => intro st _; rfl
  | cons e rest ih =>
    intro st h
    have hrest : ∀ x ∈ rest, matchesExt x.name = true → loadsCleanly x = true :=
      fun x hx => h x (List.mem_cons_of_mem e hx)
    cases hm : matchesExt e.name with
    | false =>
      have hstep := loadStep_nonmatching cs st hm
      have hpage : pageOf cs e = [] := by simp [pageOf, hm]
      have hdpi : dpiStep st e = st := by simp [dpiStep, hm]
      simp [loadLoop, hstep, ih st hrest, List.flatMap_cons, hpage, dpiFold, hdpi]
    | true =>
      have hcl : loadsCleanly e = true := h e (List.mem_cons_self e rest) hm
      cases hc : e.content with
      | undecodable ec => simp [loadsCleanly, hc] at hcl
      | decodable img =>
        have hr : img.convertRaises = none := by
          simpa [loadsCleanly, hc, Option.isNone_iff_eq_none] using hcl
        have hstep := loadStep_clean cs st hm hc hr
        have hpage : pageOf cs e = [⟨img.data, str cs⟩] := by simp [pageOf, hm, hc]
        simp [loadLoop, hstep, ih (dpiStep st e) hrest, List.flatMap_cons, hpage, dpiFold]

theorem clean_pages_length (cs : String) :
    ∀ {entries : List Entry},
      (∀ e ∈ entries, matchesExt e.name = true → loadsCleanly e = true) →
      (entries.flatMap (pageOf cs)).length
        = (entries.filter fun e => matchesExt e.name).length := by
  intro entries
  induction entries with
  | nil => intro _; rfl
  | cons e rest ih =>
    intro h
    have hrest : ∀ x ∈ rest, matchesExt x.name = true → loadsCleanly x = true :=
      fun x hx => h x (List.mem_cons_of_mem e hx)
    cases hm : matchesExt e.name with
    | false =>
      have hpage : pageOf cs e = [] := by simp [pageOf, hm]
      rw [List.filter_cons_of_neg (by simpa using hm)]
      simp [List.flatMap_cons, hpage, ih hrest]
    | true =>
      have hcl : loadsCleanly e = true := h e (List.mem_cons_self e rest) hm
      cases hc : e.content with
      | undecodable ec => simp [loadsCleanly, hc] at hcl
      | decodable img =>
        have hpage : pageOf cs e = [⟨img.data, str cs⟩] := by simp [pageOf, hm, hc]
        rw [List.filter_cons_of_pos (by simpa using hm)]
        simp [List.flatMap_cons, hpage, ih hrest]

theorem dpiFold_eq_lastMetadata :
    ∀ (entries : List Entry) (st : JpegImageLoader),
      dpiFold entries st
        = (match lastMetadata entries with
           | some m => (⟨pyRound m.1, pyRound m.2⟩ : JpegImageLoader)
           | none => st) := by
  intro entries
  induction entries with
  | nil => intro st; rfl
  | cons e rest ih =>
    intro st
    have hstep : dpiFold (e :: rest) st = dpiFold rest (dpiStep st e) := rfl
    rw [hstep, ih (dpiStep st e)]
    cases hl : lastMetadata rest with
    | some m => simp [lastMetadata, hl]
    | none =>
      simp only [lastMetadata, hl]
      cases hm : matchesExt e.name with
      | false => simp [dpiStep, metadataOf, hm]
      | true =>
        cases hc : e.content with
        | decodable img =>
          cases hd : img.dpi with
          | none => simp [dpiStep, metadataOf, hm, hc, hd]
          | some m => simp [dpiStep, metadataOf, hm, hc, hd]
        | undecodable ec => simp [dpiStep, metadataOf, hm, hc]

theorem load_images_clean (entries : List Entry) (cs : String)
    (hclean : ∀ e ∈ entries, matchesExt e.name = true → loadsCleanly e = true) :
    load_images JpegImageLoader.init (some entries) cs
      = .ok (entries.flatMap (pageOf cs),
             (dpiFold entries JpegImageLoader.init).dpi_x,
             (dpiFold entries JpegImageLoader.init).dpi_y,
             dpiFold entries JpegImageLoader.init, []) := by
  have hl := loadLoop_clean cs JpegImageLoader.init hclean
  simp [load_images, hl]

theorem load_images_ok {st : JpegImageLoader} {folder : Folder} {cs : String}
    {imgs : List ConvertedImage} {dx dy : ℤ} {st' : JpegImageLoader} {logs : List Str}
    (h : load_images st folder cs = .ok (imgs, dx, dy, st', logs)) :
    dx = st'.dpi_x ∧ dy = st'.dpi_y := by
  cases folder with
  | none => simp [load_images] at h
  | some entries =>
    cases hr : loadLoop cs entries st with
    | error err => simp [load_images, hr] at h
    | ok t =>
      obtain ⟨i, s, l⟩ := t
      simp only [load_images, hr, Except.ok.injEq, Prod.mk.injEq] at h
      obtain ⟨-, h2, h3, h4, -⟩ := h
      rw [← h2, ← h3, ← h4]
      exact ⟨rfl, rfl⟩

/-! ### The claims -/

/-- Claim C1 (amended): for every folder with at least one matching file where
every matching file loads successfully (decodes and color-space-converts
without error), the pipeline produces an output file containing exactly one
page per loaded input image — one per matching file — and the pages appear in
the loader's enumeration order of the folder. -/
theorem claim_C1 (entries : List Entry) (out comp cs : String) (q : ℤ)
    (hclean : ∀ e ∈ entries, matchesExt e.name = true → loadsCleanly e = true)
    (hne : (entries.filter fun e => matchesExt e.name) ≠ []) :
    process_images JpegImageLoader.init JpegToTiffConverter.init (some entries)
        out comp q cs
      = .ok (some ⟨entries.flatMap (pageOf cs),
                   ((dpiFold entries JpegImageLoader.init).dpi_x,
                    (dpiFold entries JpegImageLoader.init).dpi_y),
                   str comp, q⟩,
             dpiFold entries JpegImageLoader.init,
             ⟨(dpiFold entries JpegImageLoader.init).dpi_x,
              (dpiFold entries JpegImageLoader.init).dpi_y⟩,
             [savedMsg out])
    ∧ (entries.flatMap (pageOf cs)).length
        = (entries.filter fun e => matchesExt e.name).length := by
  have hload := load_images_clean entries cs hclean
  have hlen := clean_pages_length cs hclean
  have hpagesne : entries.flatMap (pageOf cs) ≠ [] := by
    intro hnil
    apply hne
    rw [hnil] at hlen
    exact List.length_eq_zero.mp hlen.symm
  refine ⟨?_, hlen⟩
  simp only [process_images, hload]
  cases hp : entries.flatMap (pageOf cs) with
  | nil => exact absurd hp hpagesne
  | cons a as => simp [convert_images_to_tiff, hp]

/-- Witness for claim C1: a folder with a matching DPI-bearing JPEG, a
matching PNG without metadata, and a non-matching text file — the run writes
a two-page file in enumeration order. -/
theorem claim_C1_witness :
    (∀ e ∈ [entryJpgDpi300, entryPngNoDpi, entryReadme],
        matchesExt e.name = true → loadsCleanly e = true)
    ∧ ([entryJpgDpi300, entryPngNoDpi, entryReadme].filter
        fun e => matchesExt e.name) ≠ []
    ∧ (process_images JpegImageLoader.init JpegToTiffConverter.init
          (some [entryJpgDpi300, entryPngNoDpi, entryReadme])
          "output_compressed.tif" "jpeg" 30 "YCbCr"
        = .ok (some ⟨[entryJpgDpi300, entryPngNoDpi, entryReadme].flatMap
                       (pageOf "YCbCr"),
                     ((dpiFold [entryJpgDpi300, entryPngNoDpi, entryReadme]
                         JpegImageLoader.init).dpi_x,
                      (dpiFold [entryJpgDpi300, entryPngNoDpi, entryReadme]
                         JpegImageLoader.init).dpi_y),
                     str "jpeg", 30⟩,
               dpiFold [entryJpgDpi300, entryPngNoDpi, entryReadme]
                 JpegImageLoader.init,
               ⟨(dpiFold [entryJpgDpi300, entryPngNoDpi, entryReadme]
                   JpegImageLoader.init).dpi_x,
                (dpiFold [entryJpgDpi300, entryPngNoDpi, entryReadme]
                   JpegImageLoader.init).dpi_y⟩,
               [savedMsg "output_compressed.tif"])
      ∧ ([entryJpgDpi300, entryPngNoDpi, entryReadme].flatMap
           (pageOf "YCbCr")).length
          = ([entryJpgDpi300, entryPngNoDpi, entryReadme].filter
              fun e => matchesExt e.name).length) :=
  ⟨by decide, by decide,
   claim_C1 [entryJpgDpi300, entryPngNoDpi, entryReadme]
     "output_compressed.tif" "jpeg" "YCbCr" 30 (by decide) (by decide)⟩

/-- Counterexample to claim C1 as stated: in the empty folder every matching
file decodes successfully (vacuously), yet the pipeline produces no output
file at all, because the converter is a silent no-op on an empty image list. -/
theorem claim_C1_counterexample :
    (∀ e ∈ ([] : List Entry), matchesExt e.name = true → loadsCleanly e = true)
    ∧ process_images JpegImageLoader.init JpegToTiffConverter.init (some [])
        "output_compressed.tif" "jpeg" 30 "YCbCr"
      = .ok (none, JpegImageLoader.init, JpegToTiffConverter.init, []) := by
  refine ⟨?_, rfl⟩
  intro e he
  cases he

/-- Claim C2: an entry is selected exactly when its lowercased name ends in
".jpg", ".jpeg" or ".png"; a non-matching entry is ignored entirely — its
loop iteration raises no error, contributes no page, prints nothing and
leaves the DPI state untouched, and the whole loop behaves as if the folder
contained only the matching entries. -/
theorem claim_C2 :
    (∀ (n : Str), matchesExt n
        = (List.isSuffixOf (str ".jpg") (n.map Char.toLower)
            || List.isSuffixOf (str ".jpeg") (n.map Char.toLower)
            || List.isSuffixOf (str ".png") (n.map Char.toLower)))
    ∧ (∀ (cs : String) (st : JpegImageLoader) (e : Entry),
        matchesExt e.name = false → loadStep cs st e = .ok (st, none, none))
    ∧ (∀ (cs : String) (entries : List Entry) (st : JpegImageLoader),
        loadLoop cs (entries.filter fun e => matchesExt e.name) st
          = loadLoop cs entries st) :=
  ⟨fun _ => rfl, fun cs st _ h => loadStep_nonmatching cs st h, loadLoop_filter⟩

/-- Witness for claim C2: a `.bmp` entry whose content would even raise a
non-IOError exception is ignored entirely — no error, no page, no log line. -/
theorem claim_C2_witness :
    matchesExt entryBmp.name = false
    ∧ loadStep "RGB" JpegImageLoader.init entryBmp
        = .ok (JpegImageLoader.init, none, none) :=
  ⟨by decide, claim_C2.2.1 "RGB" JpegImageLoader.init entryBmp (by decide)⟩

/-- Claim C3 (amended): DPI resolution is stateful and sequential — the
running pair starts at the default (100, 100); each image that `Image.open`
yields and that has embedded DPI metadata overwrites the pair with its
rounded metadata, an image without metadata leaves the previous value in
place; and the resolved DPI returned for the batch is the value set by the
last successfully *opened* image that had metadata — even if that image was
subsequently skipped because its color-space conversion failed — or the
default if none did. -/
theorem claim_C3 :
    JpegImageLoader.init = ⟨100, 100⟩
    ∧ (∀ (st : JpegImageLoader) (img : SrcImage) (m : ℚ × ℚ), img.dpi = some m →
        dpiUpdate st img = ⟨pyRound m.1, pyRound m.2⟩)
    ∧ (∀ (st : JpegImageLoader) (img : SrcImage), img.dpi = none →
        dpiUpdate st img = st)
    ∧ (∀ (cs : String) (entries : List Entry) (st : JpegImageLoader)
         (imgs : List ConvertedImage) (dx dy : ℤ) (st' : JpegImageLoader)
         (logs : List Str),
        load_images st (some entries) cs = .ok (imgs, dx, dy, st', logs) →
          st' = dpiFold entries st ∧ dx = st'.dpi_x ∧ dy = st'.dpi_y)
    ∧ (∀ (entries : List Entry) (st : JpegImageLoader),
        dpiFold entries st
          = (match lastMetadata entries with
             | some m => (⟨pyRound m.1, pyRound m.2⟩ : JpegImageLoader)
             | none => st)) := by
  refine ⟨rfl, ?_, ?_, ?_, dpiFold_eq_lastMetadata⟩
  · intro st img m h; exact dpiUpdate_dpi_some st h
  · intro st img h; exact dpiUpdate_dpi_none st h
  · intro cs entries st imgs dx dy st' logs h
    obtain ⟨hdx, hdy⟩ := load_images_ok h
    refine ⟨?_, hdx, hdy⟩
    cases hr : loadLoop cs entries st with
    | error err => simp [load_images, hr] at h
    | ok t =>
      obtain ⟨i, s, l⟩ := t
      simp only [load_images, hr, Except.ok.injEq, Prod.mk.injEq] at h
      rw [← h.2.2.2.1]
      exact loadLoop_state hr

/-- Witness for claim C3: a batch of a 300-DPI JPEG followed by a PNG without
metadata resolves to (300, 300) — the last opened image with metadata wins
and the metadata-less image keeps the previous value. -/
theorem claim_C3_witness :
    load_images JpegImageLoader.init (some [entryJpgDpi300, entryPngNoDpi]) "RGB"
      = .ok ([⟨1, str "RGB"⟩, ⟨2, str "RGB"⟩], 300, 300, ⟨300, 300⟩, [])
    ∧ ((⟨300, 300⟩ : JpegImageLoader)
          = dpiFold [entryJpgDpi300, entryPngNoDpi] JpegImageLoader.init
        ∧ (300 : ℤ) = (⟨300, 300⟩ : JpegImageLoader).dpi_x
        ∧ (300 : ℤ) = (⟨300, 300⟩ : JpegImageLoader).dpi_y) :=
  ⟨by decide,
   claim_C3.2.2.2.1 "RGB" [entryJpgDpi300, entryPngNoDpi] JpegImageLoader.init
     [⟨1, str "RGB"⟩, ⟨2, str "RGB"⟩] 300 300 ⟨300, 300⟩ [] (by decide)⟩

/-- Counterexample to claim C3 as stated: a truncated JPEG opens and exposes
300x300 DPI metadata, then fails color-space conversion and is skipped, so
the batch has *no* successfully loaded image — the claim then demands the
default (100, 100), but the code resolves (300, 300). -/
theorem claim_C3_counterexample :
    load_images JpegImageLoader.init (some [entryTruncatedJpg]) "RGB"
      = .ok ([], 300, 300, ⟨300, 300⟩, [errLine (str "t.jpg")])
    ∧ (300 : ℤ) ≠ 100 := by
  refine ⟨?_, ?_⟩ <;> decide

/-- Claim C4: for a folder with zero matching files the run is a silent no-op
at the converter — `convert_images_to_tiff` on an empty image sequence writes
no file, raises no error and prints no success line, and the whole pipeline
run returns without any output file or message. -/
theorem claim_C4 :
    (∀ (conv : JpegToTiffConverter) (out comp : String) (q : ℤ),
        convert_images_to_tiff conv [] out comp q = (none, []))
    ∧ (∀ (loader : JpegImageLoader) (conv : JpegToTiffConverter)
         (entries : List Entry) (out comp cs : String) (q : ℤ),
        (∀ e ∈ entries, matchesExt e.name = false) →
        process_images loader conv (some entries) out comp q cs
          = .ok (none, loader, ⟨loader.dpi_x, loader.dpi_y⟩, [])) := by
  refine ⟨fun conv out comp q => rfl, ?_⟩
  intro loader conv entries out comp cs q h
  have hl := loadLoop_nonmatching cs loader h
  simp [process_images, load_images, hl, convert_images_to_tiff]

/-- Witness for claim C4: a folder holding only a `.bmp` and a `.txt` file
produces no output file, no error and no console line. -/
theorem claim_C4_witness :
    (∀ e ∈ [entryBmp, entryReadme], matchesExt e.name = false)
    ∧ process_images ⟨100, 100⟩ ⟨100, 100⟩ (some [entryBmp, entryReadme])
        "output_compressed.tif" "jpeg" 30 "YCbCr"
      = .ok (none, ⟨100, 100⟩, ⟨100, 100⟩, []) :=
  ⟨by decide,
   claim_C4.2 ⟨100, 100⟩ ⟨100, 100⟩ [entryBmp, entryReadme]
     "output_compressed.tif" "jpeg" "YCbCr" 30 (by decide)⟩

/-- Claim C5: on a fresh loader, an empty folder — and any folder with zero
matching files — yields an empty image sequence and the default DPI pair
(100, 100). -/
theorem claim_C5 (entries : List Entry) (cs : String)
    (h : ∀ e ∈ entries, matchesExt e.name = false) :
    load_images JpegImageLoader.init (some entries) cs
      = .ok ([], 100, 100, JpegImageLoader.init, []) := by
  have hl := loadLoop_nonmatching cs JpegImageLoader.init h
  simp [load_images, hl]
  exact ⟨rfl, rfl⟩

/-- Witness for claim C5: the empty folder yields the empty sequence and
DPI (100, 100). -/
theorem claim_C5_witness :
    (∀ e ∈ ([] : List Entry), matchesExt e.name = false)
    ∧ load_images JpegImageLoader.init (some []) "RGB"
        = .ok ([], 100, 100, JpegImageLoader.init, []) :=
  ⟨by decide, claim_C5 [] "RGB" (by decide)⟩

/-- Claim C6: a selected file on which `Image.open` raises an
IOError/OSError is reported with a per-file error line and skipped — it
contributes no image — and the loop continues with the remaining files: the
batch result is exactly the result on the remaining files with the error
line prepended, so the failure never aborts the batch. -/
theorem claim_C6 (cs : String) (st : JpegImageLoader) (e : Entry)
    (rest : List Entry) (hm : matchesExt e.name = true)
    (hc : e.content = .undecodable .ioOsError) :
    loadLoop cs (e :: rest) st
      = (match loadLoop cs rest st with
         | .ok (imgs, st', logs) => .ok (imgs, st', errLine e.name :: logs)
         | .error err => .error err) := by
  have hstep := loadStep_undecodable_ioOs cs st hm hc
  cases hr : loadLoop cs rest st with
  | error err => simp [loadLoop, hstep, hr]
  | ok t => obtain ⟨i, s, l⟩ := t; simp [loadLoop, hstep, hr]

/-- Witness for claim C6: a corrupt `.jpeg` followed by a valid JPEG — the
corrupt file yields an error line and the valid file still becomes a page. -/
theorem claim_C6_witness :
    matchesExt entryCorruptJpeg.name = true
    ∧ entryCorruptJpeg.content = .undecodable .ioOsError
    ∧ loadLoop "RGB" (entryCorruptJpeg :: [entryJpgDpi300]) JpegImageLoader.init
        = (match loadLoop "RGB" [entryJpgDpi300] JpegImageLoader.init with
           | .ok (imgs, st', logs) =>
             .ok (imgs, st', errLine entryCorruptJpeg.name :: logs)
           | .error err => .error err) :=
  ⟨by decide, rfl,
   claim_C6 "RGB" JpegImageLoader.init entryCorruptJpeg [entryJpgDpi300]
     (by decide) rfl⟩

/-- Claim C7: a failure raised during color-space conversion of a decoded
image is handled identically to a decode failure: an IOError/OSError-class
conversion failure takes the same skip path (error line, no page, batch
continues), and for every exception class the loop behaves exactly as if the
failure had been raised at decode time — started from the DPI state the
already-executed metadata update produced.  There is no separate handling. -/
theorem claim_C7 :
    (∀ (cs : String) (st : JpegImageLoader) (e : Entry) (img : SrcImage)
       (rest : List Entry),
        matchesExt e.name = true → e.content = .decodable img →
        img.convertRaises = some .ioOsError →
        loadLoop cs (e :: rest) st
          = (match loadLoop cs rest (dpiStep st e) with
             | .ok (imgs, st', logs) => .ok (imgs, st', errLine e.name :: logs)
             | .error err => .error err))
    ∧ (∀ (cs : String) (st : JpegImageLoader) (e : Entry) (img : SrcImage)
         (rest : List Entry) (c : ErrClass),
        matchesExt e.name = true → e.content = .decodable img →
        img.convertRaises = some c →
        loadLoop cs (e :: rest) st
          = loadLoop cs ({ name := e.name, content := .undecodable c } :: rest)
              (dpiStep st e)) := by
  constructor
  · intro cs st e img rest hm hc hr
    have hstep := loadStep_convert_ioOs cs st hm hc hr
    cases hl : loadLoop cs rest (dpiStep st e) with
    | error err => simp [loadLoop, hstep, hl]
    | ok t => obtain ⟨i, s, l⟩ := t; simp [loadLoop, hstep, hl]
  · intro cs st e img rest c hm hc hr
    cases c with
    | ioOsError =>
      have hstep := loadStep_convert_ioOs cs st hm hc hr
      have hstep2 : loadStep cs (dpiStep st e)
          { name := e.name, content := .undecodable .ioOsError }
          = .ok (dpiStep st e, none, some (errLine e.name)) :=
        loadStep_undecodable_ioOs cs (dpiStep st e) hm rfl
      cases hl : loadLoop cs rest (dpiStep st e) with
      | error err => simp [loadLoop, hstep, hstep2, hl]
      | ok t => obtain ⟨i, s, l⟩ := t; simp [loadLoop, hstep, hstep2, hl]
    | otherError =>
      have hstep := loadStep_convert_other cs st hm hc hr
      have hstep2 : loadStep cs (dpiStep st e)
          { name := e.name, content := .undecodable .otherError }
          = .error .otherError :=
        loadStep_undecodable_other cs (dpiStep st e) hm rfl
      simp [loadLoop, hstep, hstep2]

/-- Witness for claim C7: a truncated JPEG whose conversion raises an
IOError behaves exactly like a file whose decode raised it, from the
DPI-updated state. -/
theorem claim_C7_witness :
    matchesExt entryTruncatedJpg.name = true
    ∧ entryTruncatedJpg.content = .decodable ⟨4, some (300, 300), some .ioOsError⟩
    ∧ loadLoop "RGB" (entryTruncatedJpg :: [entryPngNoDpi]) JpegImageLoader.init
        = loadLoop "RGB"
            ({ name := entryTruncatedJpg.name, content := .undecodable .ioOsError }
              :: [entryPngNoDpi])
            (dpiStep JpegImageLoader.init entryTruncatedJpg) :=
  ⟨by decide, rfl,
   claim_C7.2 "RGB" JpegImageLoader.init entryTruncatedJpg
     ⟨4, some (300, 300), some .ioOsError⟩ [entryPngNoDpi] .ioOsError
     (by decide) rfl rfl⟩

/-- Claim C8: whenever `process_images` completes, the converter's DPI fields
hold exactly the loader's resolved DPI pair (they were copied over before the
conversion call), and the single DPI pair embedded in the written output file
— which applies uniformly to all its pages — equals that resolved pair. -/
theorem claim_C8 (loader : JpegImageLoader) (conv : JpegToTiffConverter)
    (folder : Folder) (out comp : String) (q : ℤ) (cs : String)
    (fileOpt : Option TiffFile) (loader' : JpegImageLoader)
    (conv' : JpegToTiffConverter) (logs : List Str)
    (h : process_images loader conv folder out comp q cs
          = .ok (fileOpt, loader', conv', logs)) :
    conv'.dpi_x = loader'.dpi_x ∧ conv'.dpi_y = loader'.dpi_y
    ∧ ∀ f, fileOpt = some f → f.dpi = (loader'.dpi_x, loader'.dpi_y) := by
  cases hl : load_images loader folder cs with
  | error err => simp [process_images, hl] at h
  | ok t =>
    obtain ⟨imgs, dx, dy, l2, lg⟩ := t
    obtain ⟨hdx, hdy⟩ := load_images_ok hl
    simp only [process_images, hl, Except.ok.injEq, Prod.mk.injEq] at h
    obtain ⟨h1, h2, h3, -⟩ := h
    rw [← h2, ← h3, ← hdx, ← hdy]
    refine ⟨rfl, rfl, ?_⟩
    intro f hf
    cases imgs with
    | nil =>
      rw [← h1] at hf
      simp [convert_images_to_tiff] at hf
    | cons a as =>
      rw [← h1] at hf
      simp only [convert_images_to_tiff, Option.some.injEq] at hf
      rw [← hf]

/-- Witness for claim C8: a run over a single 300-DPI JPEG writes a file
whose embedded DPI pair is the loader's resolved (300, 300). -/
theorem claim_C8_witness :
    process_images JpegImageLoader.init JpegToTiffConverter.init
        (some [entryJpgDpi300]) "output_compressed.tif" "jpeg" 30 "RGB"
      = .ok (some ⟨[⟨1, str "RGB"⟩], (300, 300), str "jpeg", 30⟩,
             ⟨300, 300⟩, ⟨300, 300⟩, [savedMsg "output_compressed.tif"])
    ∧ (⟨300, 300⟩ : JpegToTiffConverter).dpi_x
        = (⟨300, 300⟩ : JpegImageLoader).dpi_x
    ∧ (⟨300, 300⟩ : JpegToTiffConverter).dpi_y
        = (⟨300, 300⟩ : JpegImageLoader).dpi_y
    ∧ (⟨[⟨1, str "RGB"⟩], (300, 300), str "jpeg", 30⟩ : TiffFile).dpi
        = ((⟨300, 300⟩ : JpegImageLoader).dpi_x,
           (⟨300, 300⟩ : JpegImageLoader).dpi_y) := by
  have h := claim_C8 JpegImageLoader.init JpegToTiffConverter.init
    (some [entryJpgDpi300]) "output_compressed.tif" "jpeg" 30 "RGB"
    (some ⟨[⟨1, str "RGB"⟩], (300, 300), str "jpeg", 30⟩)
    ⟨300, 300⟩ ⟨300, 300⟩ [savedMsg "output_compressed.tif"] (by decide)
  exact ⟨by decide, h.1, h.2.1, h.2.2 _ rfl⟩

/-- Claim C9: reusing the same loader instance leaks DPI state — after a
call to `load_images`, the instance's fields hold that call's resolved DPI
pair, and a subsequent call on the same instance uses that value, not the
default (100, 100): a folder with no matching files now resolves to the
stale pair, and an image lacking metadata falls back to it. -/
theorem claim_C9 (entries : List Entry) (cs : String)
    (imgs : List ConvertedImage) (dx dy : ℤ) (loader1 : JpegImageLoader)
    (logs : List Str)
    (h : load_images JpegImageLoader.init (some entries) cs
          = .ok (imgs, dx, dy, loader1, logs)) :
    loader1.dpi_x = dx ∧ loader1.dpi_y = dy
    ∧ (∀ (entries2 : List Entry) (cs2 : String),
        (∀ e ∈ entries2, matchesExt e.name = false) →
        load_images loader1 (some entries2) cs2 = .ok ([], dx, dy, loader1, []))
    ∧ (∀ (cs2 : String) (nm : Str) (d : Nat), matchesExt nm = true →
        loadStep cs2 loader1 ⟨nm, .decodable ⟨d, none, none⟩⟩
          = .ok (loader1, some ⟨d, str cs2⟩, none)) := by
  obtain ⟨hdx, hdy⟩ := load_images_ok h
  refine ⟨hdx.symm, hdy.symm, ?_, ?_⟩
  · intro entries2 cs2 h2
    have hl := loadLoop_nonmatching cs2 loader1 h2
    simp [load_images, hl, hdx, hdy]
  · intro cs2 nm d hm
    have hupd : dpiUpdate loader1 ⟨d, none, none⟩ = loader1 :=
      dpiUpdate_dpi_none loader1 rfl
    simp [loadStep, hm, hupd]

/-- Witness for claim C9: after loading a 300-DPI JPEG, the same instance
reports (300, 300) — not (100, 100) — for a folder of only text files, and
uses (300, 300) as the fallback for a metadata-less image. -/
theorem claim_C9_witness :
    load_images JpegImageLoader.init (some [entryJpgDpi300]) "RGB"
      = .ok ([⟨1, str "RGB"⟩], 300, 300, ⟨300, 300⟩, [])
    ∧ (⟨300, 300⟩ : JpegImageLoader).dpi_x = 300
    ∧ (⟨300, 300⟩ : JpegImageLoader).dpi_y = 300
    ∧ load_images ⟨300, 300⟩ (some [entryReadme]) "RGB"
        = .ok ([], 300, 300, ⟨300, 300⟩, [])
    ∧ loadStep "RGB" ⟨300, 300⟩ ⟨str "f.png", .decodable ⟨7, none, none⟩⟩
        = .ok (⟨300, 300⟩, some ⟨7, str "RGB"⟩, none)
    ∧ (300 : ℤ) ≠ 100 := by
  have h := claim_C9 [entryJpgDpi300] "RGB" [⟨1, str "RGB"⟩] 300 300 ⟨300, 300⟩ []
    (by decide)
  exact ⟨by decide, h.1, h.2.1, h.2.2.1 [entryReadme] "RGB" (by decide),
         h.2.2.2 "RGB" (str "f.png") 7 (by decide), by decide⟩

/-- Claim C10: the skip-on-error recovery applies only to IOError/OSError
failures raised inside the per-file body — a non-IOError failure there
escapes uncaught, and every uncaught error escaping the loop body is of that
non-IOError class — while a folder path that does not exist makes the folder
enumeration itself raise, before any per-file handling, aborting the whole
run. -/
theorem claim_C10 :
    (∀ (st : JpegImageLoader) (cs : String),
        load_images st none cs = .error .ioOsError)
    ∧ (∀ (loader : JpegImageLoader) (conv : JpegToTiffConverter)
         (out comp : String) (q : ℤ) (cs : String),
        process_images loader conv none out comp q cs = .error .ioOsError)
    ∧ (∀ (cs : String) (st : JpegImageLoader) (e : Entry),
        matchesExt e.name = true → e.content = .undecodable .otherError →
        loadStep cs st e = .error .otherError)
    ∧ (∀ (cs : String) (st : JpegImageLoader) (e : Entry) (img : SrcImage),
        matchesExt e.name = true → e.content = .decodable img →
        img.convertRaises = some .otherError →
        loadStep cs st e = .error .otherError)
    ∧ (∀ (cs : String) (entries : List Entry) (st : JpegImageLoader)
         (err : ErrClass),
        loadLoop cs entries st = .error err → err = .otherError) := by
  refine ⟨fun st cs => rfl, fun loader conv out comp q cs => rfl, ?_, ?_, ?_⟩
  · intro cs st e hm hc; exact loadStep_undecodable_other cs st hm hc
  · intro cs st e img hm hc hr; exact loadStep_convert_other cs st hm hc hr
  · intro cs entries st err h; exact loadLoop_error_class h

/-- Witness for claim C10: a matching PNG raising a non-IOError exception
escapes the per-file handler and aborts the whole loop. -/
theorem claim_C10_witness :
    (matchesExt entryBadPng.name = true
      ∧ loadStep "RGB" JpegImageLoader.init entryBadPng
          = .error ErrClass.otherError)
    ∧ (loadLoop "RGB" [entryBadPng] JpegImageLoader.init
          = .error ErrClass.otherError
        ∧ ErrClass.otherError = ErrClass.otherError)
    ∧ load_images JpegImageLoader.init none "RGB" = .error ErrClass.ioOsError :=
  ⟨⟨by decide,
    claim_C10.2.2.1 "RGB" JpegImageLoader.init entryBadPng (by decide) rfl⟩,
   ⟨by decide,
    claim_C10.2.2.2.2 "RGB" [entryBadPng] JpegImageLoader.init
      ErrClass.otherError (by decide)⟩,
   by decide⟩

end MultipageTiff
